import Mathlib

/-!
Verification development for the EngageRunner engagement-orchestration core.

The definitions below are shallow embeddings, translated from the Python
sources:
  * `src/engagerunner/utils/time_parser.py`   (relative-time normalization)
  * `src/engagerunner/utils/state.py`         (EngagementState ledger)
  * `src/engagerunner/utils/safety.py`        (RateLimiter)
  * `src/engagerunner/platforms/youtube.py`   (recent-days filter of list_videos)
  * `src/engagerunner/cli.py`                 (_process_video_comments loop)

Modelling conventions:
  * absolute times are integers (seconds) for the time normalizer and the
    ledger, and rationals (seconds) for the rate limiter, whose delays are
    fractional;
  * the ambient system clock (Python's datetime.now(UTC)) is made explicit as
    a `SysClock` value handed to each embedded function that reads it;
  * strings are treated at ASCII granularity: str.lower / str.strip / regex
    character classes are modelled for the ASCII range (every phrase appearing
    in the repository and its tests is ASCII);
  * randomness (random.uniform) and provider success are oracle inputs;
  * sleeping advances the modelled clock by exactly the slept amount.
-/

namespace EngageRunner

/-! ## 1. Time normalization — src/engagerunner/utils/time_parser.py

`parse_relative_time` (lines 10-51).  The Python function takes the phrase as
its only parameter and reads the system clock internally
(`now = datetime.now(UTC)`, line 25); the `SysClock` argument below models that
ambient clock read, not a parameter of the source function. -/

/-- The ambient system clock; `now` is the instant `datetime.now(UTC)` returns
at the moment the embedded function reads it. -/
structure SysClock where
  now : Int
deriving DecidableEq, Repr

/-- ASCII characters matched by Python's whitespace class and stripped by
`str.strip`: tab through carriage return (codes 9-13) and the space. -/
def pySpace (c : Char) : Bool :=
  c.toNat == 32 || (9 ≤ c.toNat && c.toNat ≤ 13)

/-- ASCII `str.lower` on one character. -/
def pyLowerChar (c : Char) : Char :=
  if 65 ≤ c.toNat ∧ c.toNat ≤ 90 then Char.ofNat (c.toNat + 32) else c

/-- ASCII `str.lower`. -/
def pyLower (l : List Char) : List Char := l.map pyLowerChar

/-- ASCII `str.strip`. -/
def pyStrip (l : List Char) : List Char :=
  ((l.dropWhile pySpace).reverse.dropWhile pySpace).reverse

/-- Value of a nonempty digit string (`int(match.group(1))`). -/
def digitsVal (ds : List Char) : Nat :=
  ds.foldl (fun n c => 10 * n + (c.toNat - 48)) 0

/-- Match a literal word at the head of the input, returning the rest. -/
def stripWord : List Char → List Char → Option (List Char)
  | [], rest => some rest
  | _ :: _, [] => none
  | c :: ws, d :: rest => if c = d then stripWord ws rest else none

/-- The unit alternation of the source regex, in source order. -/
def unitWords : List (List Char) :=
  ["second".data, "minute".data, "hour".data, "day".data,
   "week".data, "month".data, "year".data]

/-- First alternative of `(second|minute|hour|day|week|month|year)` that
matches a prefix of the input. -/
def matchFirstWord : List (List Char) → List Char → Option (List Char × List Char)
  | [], _ => none
  | w :: ws, l =>
    match stripWord w l with
    | some r => some (w, r)
    | none => matchFirstWord ws l

/-- Prefix match of the source regex
`(\d+)\s+(second|minute|hour|day|week|month|year)s?\s+ago` (`re.match`
anchors at the start only, so trailing text is allowed).  The greedy `s?`
never needs backtracking: if an `s` follows the unit, the `\s+` after it can
succeed only when the `s` was consumed. -/
def parseAmountUnit (l : List Char) : Option (Nat × List Char) :=
  let p1 := l.span Char.isDigit
  if p1.1.isEmpty then none else
  let p2 := p1.2.span pySpace
  if p2.1.isEmpty then none else
  match matchFirstWord unitWords p2.2 with
  | none => none
  | some (u, r3) =>
    let r4 := match r3 with
      | 's' :: t => t
      | _ => r3
    let p5 := r4.span pySpace
    if p5.1.isEmpty then none
    else if "ago".data.isPrefixOf p5.2 then some (digitsVal p1.1, u) else none

/-- The `delta_map` of the source in seconds: month = 30 days and
year = 365 days are the documented approximations; the final `0` is the
`delta_map.get(unit, timedelta())` default. -/
def deltaSeconds (unit : List Char) (amount : Nat) : Int :=
  if unit = "second".data then (amount : Int)
  else if unit = "minute".data then 60 * amount
  else if unit = "hour".data then 3600 * amount
  else if unit = "day".data then 86400 * amount
  else if unit = "week".data then 604800 * amount
  else if unit = "month".data then 2592000 * amount
  else if unit = "year".data then 31536000 * amount
  else 0

/-- Embedding of parse_relative_time (time_parser.py lines 10-51).  The source function's
only parameter is the phrase; `clock` models the internal
`datetime.now(UTC)` read.  Unrecognized input falls back to `now` after a
logged warning. -/
def parse_relative_time (clock : SysClock) (relative_str : String) : Int :=
  let now := clock.now
  let t := pyStrip (pyLower relative_str.data)
  if t = "just now".data ∨ t = "moments ago".data then now
  else
    match parseAmountUnit t with
    | none => now
    | some au => now - deltaSeconds au.2 au.1

/-- True exactly when `parse_relative_time` takes the warn-and-fall-back
branch (time_parser.py lines 34-36). -/
def timeParseFallback (s : String) : Bool :=
  let t := pyStrip (pyLower s.data)
  !(t = "just now".data ∨ t = "moments ago".data : Bool) && (parseAmountUnit t).isNone

/-- Offset (in seconds) that a phrase subtracts from the clock reading; the
fallback and the just-now phrases subtract nothing. -/
def phraseOffset (s : String) : Int :=
  let t := pyStrip (pyLower s.data)
  if t = "just now".data ∨ t = "moments ago".data then 0
  else
    match parseAmountUnit t with
    | none => 0
    | some au => deltaSeconds au.2 au.1

/-! ## 2. Recent-days filtering — src/engagerunner/platforms/youtube.py

The date-filter block of `YouTubePlatform.list_videos` (lines 156-176).  The
source reads the clock twice (once for the cutoff, once inside each
`parse_relative_time` call); the model uses one instant for both reads.  The
`except` branch of the source loop (exclude with a warning) is unreachable
here because `parse_relative_time` is total on strings. -/

/-- A raw video record extracted from the page: a loosely-typed mapping; a
missing key is `none` (`video.get(k, default)`). -/
structure RawVideo where
  url : Option String := none
  title : Option String := none
  views : Option String := none
  posted : Option String := none
deriving DecidableEq, Repr

/-- Lines 156-176 of list_videos: `if days_ago and videos:` (both `None` and
`0` are falsy, as is an empty list), cutoff `now - timedelta(days=days_ago)`,
keep exactly the videos with `parse_relative_time(posted) >= cutoff`. -/
def filterVideosByDate (now : Int) (days_ago : Option Int) (videos : List RawVideo) :
    List RawVideo :=
  match days_ago with
  | none => videos
  | some d =>
    if d = 0 ∨ videos.isEmpty then videos
    else
      videos.filter fun v =>
        decide (now - d * 86400 ≤ parse_relative_time ⟨now⟩ (v.posted.getD ""))

/-! ## 3. The ledger — src/engagerunner/utils/state.py

`EngagementState` persists two sets of string ids plus a last-run timestamp to
a single JSON file.  The backing file is modelled at JSON-value granularity:
text-level JSON encoding is lossless for the shapes the ledger writes, so the
model stores a parsed `Json` value, with distinguished states for a missing
file, an unreadable file (OSError on open/read), and unparsable content
(json.JSONDecodeError or a truncated in-place write). -/

/-- JSON values (at the granularity the ledger needs). -/
inductive Json where
  | null
  | boolVal (b : Bool)
  | num (n : Int)
  | str (s : String)
  | arr (xs : List Json)
  | obj (fields : List (String × Json))

/-- The single backing file. -/
inductive FileState where
  | absent
  | unreadable
  | invalidJson
  | json (v : Json)

/-- Python exceptions the embedded code can raise or catch. -/
inductive PyErr where
  | osError
  | attributeError
  | typeError
deriving DecidableEq, Repr

/-- First binding of a key in a JSON object (`data.get(k)`). -/
def lookupField : List (String × Json) → String → Option Json
  | [], _ => none
  | (k, v) :: rest, key => if k = key then some v else lookupField rest key

/-- Extract an all-string JSON array. -/
def jsonStrs? : List Json → Option (List String)
  | [] => some []
  | Json.str s :: rest => (jsonStrs? rest).map (s :: ·)
  | _ :: _ => none

/-- Python `set(x)` restricted to shapes the ledger meets: an all-string array
becomes the set of its elements; a string iterates to its characters; an
object iterates to its keys; non-iterables raise TypeError.  (Arrays mixing
strings with other hashable scalars build a heterogeneous set in Python; that
corner is folded into `typeError` here and no theorem exercises it.) -/
def pySetOfJson : Json → Except PyErr (Finset String)
  | Json.arr xs =>
    match jsonStrs? xs with
    | some ss => .ok ss.toFinset
    | none => .error .typeError
  | Json.str s => .ok ((s.data.map fun c => String.mk [c]).toFinset)
  | Json.obj fields => .ok ((fields.map (·.1)).toFinset)
  | _ => .error .typeError

/-- Model of `datetime.now(UTC).isoformat()`: an injective textual encoding of
the instant. -/
def isoOfTime (t : Int) : String := toString t

/-- Model of `datetime.fromisoformat` on the strings this system writes.  (On
arbitrary garbage the source raises ValueError; the model is lenient there —
no theorem exercises that corner.) -/
def fromIsoModel (s : String) : Option Int := s.toInt?

/-- The in-memory ledger: `processed_videos`, `processed_comments`,
`last_run` (state.py lines 26-28). -/
structure EngagementState where
  processed_videos : Finset String
  processed_comments : Finset String
  last_run : Option Int
deriving DecidableEq

/-- The freshly-initialized ledger (state.py lines 26-28). -/
def EngagementState.fresh : EngagementState := ⟨∅, ∅, none⟩

/-- Embedding of EngagementState._load (state.py lines 32-53), fused with the
construction in `__init__`: a missing file starts fresh; OSError and
json.JSONDecodeError are caught (logged) and leave the fresh sets; any other
exception — such as the AttributeError from `data.get` when the parsed JSON
is not an object, or the TypeError from `set(...)` — escapes the
constructor. -/
def EngagementState.load (file : FileState) : Except PyErr EngagementState :=
  match file with
  | .absent => .ok EngagementState.fresh
  | .unreadable => .ok EngagementState.fresh
  | .invalidJson => .ok EngagementState.fresh
  | .json v =>
    match v with
    | Json.obj fields =>
      match pySetOfJson ((lookupField fields "processed_videos").getD (Json.arr [])) with
      | .error e => .error e
      | .ok pv =>
        match pySetOfJson ((lookupField fields "processed_comments").getD (Json.arr [])) with
        | .error e => .error e
        | .ok pc =>
          let lr : Option Int :=
            match lookupField fields "last_run" with
            | some (Json.str s) => if s = "" then none else fromIsoModel s
            | _ => none
          .ok ⟨pv, pc, lr⟩
    | _ => .error .attributeError

/-- The JSON document `save` writes (state.py lines 60-64).  Python's
`list(set)` enumerates in an arbitrary order; the model picks the sorted
enumeration as its deterministic representative. -/
def EngagementState.toJson (st : EngagementState) (now : Int) : Json :=
  Json.obj
    [("processed_videos", Json.arr ((st.processed_videos.sort (· ≤ ·)).map Json.str)),
     ("processed_comments", Json.arr ((st.processed_comments.sort (· ≤ ·)).map Json.str)),
     ("last_run", Json.str (isoOfTime now))]

/-- How far the write attempt gets; `failDuringWrite` is an OSError raised by
`json.dump` after `open("w")` already truncated the file. -/
inductive WriteOutcome where
  | ok
  | failMkdir
  | failOpen
  | failDuringWrite
deriving DecidableEq, Repr

/-- The filesystem primitive behind `mkdir` + `open("w")` + `json.dump`: the
resulting file state, plus the OSError if one was raised. -/
def fsOpenTruncWrite (file : FileState) (j : Json) :
    WriteOutcome → FileState × Option PyErr
  | .ok => (.json j, none)
  | .failMkdir => (file, some .osError)
  | .failOpen => (file, some .osError)
  | .failDuringWrite => (.invalidJson, some .osError)

/-- Embedding of EngagementState.save (state.py lines 55-70): serialize the sets with a
fresh clock reading and write the file in place; `except OSError` swallows a
write failure after logging it, so nothing propagates to the caller and the
in-memory sets are untouched.  Returns (in-memory state, file state, exception
escaping to the caller). -/
def EngagementState.save (st : EngagementState) (now : Int) (file : FileState)
    (w : WriteOutcome) : EngagementState × FileState × Option PyErr :=
  let r := fsOpenTruncWrite file (st.toJson now) w
  match r.2 with
  | some _ => (st, r.1, none)
  | none => (st, r.1, none)

/-- Embedding of is_comment_processed (state.py lines 80-82). -/
def EngagementState.is_comment_processed (st : EngagementState) (comment_id : String) :
    Bool :=
  decide (comment_id ∈ st.processed_comments)

/-- Embedding of mark_comment_processed (state.py lines 84-86). -/
def EngagementState.mark_comment_processed (st : EngagementState) (comment_id : String) :
    EngagementState :=
  { st with processed_comments := insert comment_id st.processed_comments }

/-- Embedding of is_video_processed (state.py lines 72-74). -/
def EngagementState.is_video_processed (st : EngagementState) (video_url : String) :
    Bool :=
  decide (video_url ∈ st.processed_videos)

/-- Embedding of mark_video_processed (state.py lines 76-78). -/
def EngagementState.mark_video_processed (st : EngagementState) (video_url : String) :
    EngagementState :=
  { st with processed_videos := insert video_url st.processed_videos }

/-! ## 4. Rate limiting — src/engagerunner/utils/safety.py

`RateLimiter.wait_if_needed` (lines 32-61).  Time is rational seconds.  The
call's clock reading and the `random.uniform(min_delay, max_delay)` draw are
inputs; `asyncio.sleep` advances the clock by exactly the slept amount, so
the appended timestamp (`datetime.now(UTC)` after both sleeps) is
`now + wait + jitter`. -/

/-- State built by RateLimiter.__init__ (safety.py lines 14-30). -/
structure RateLimiter where
  actions_per_minute : Nat
  min_delay : ℚ
  max_delay : ℚ
  action_times : List ℚ

/-- The pruning step (safety.py lines 37-38): keep timestamps strictly newer
than `now - 60`. -/
def prunedTimes (rl : RateLimiter) (now : ℚ) : List ℚ :=
  rl.action_times.filter fun t => decide (now - 60 < t)

/-- Embedding of wait_if_needed (safety.py lines 32-61): prune timestamps at or beyond
60 seconds of age, sleep until the oldest retained timestamp leaves the
window when the ceiling is reached, always sleep the jitter, then record the
post-sleep instant.  Returns the ceiling wait and the new state; `none` is
the IndexError the source raises at `self.action_times[0]` when
`actions_per_minute = 0` and the window is empty. -/
def RateLimiter.wait_if_needed (rl : RateLimiter) (now jitter : ℚ) :
    Option (ℚ × RateLimiter) :=
  let pruned := prunedTimes rl now
  if rl.actions_per_minute ≤ pruned.length then
    match pruned with
    | [] => none
    | oldest :: _ =>
      let wait_seconds := oldest + 60 - now
      let w := if 0 < wait_seconds then wait_seconds else 0
      some (w, ⟨rl.actions_per_minute, rl.min_delay, rl.max_delay,
                pruned ++ [now + w + jitter]⟩)
  else
    some (0, ⟨rl.actions_per_minute, rl.min_delay, rl.max_delay,
              pruned ++ [now + 0 + jitter]⟩)

/-! ## 5. The orchestration loop — src/engagerunner/cli.py

`_process_video_comments` (lines 117-186) and the per-video fold of
`engage_with_scenario` (lines 261-266).  The content provider
(`platform.read_comments`) is a function from a video URL and cap to a
comment list; the action provider's success (`platform.like_comment`) is an
oracle consumed one value per dispatch.  Rate-governor and persist
invocations are recorded as events; their own behaviour is modelled in
sections 3 and 4. -/

/-- The fields of `models.Comment` the loop touches. -/
structure CommentRec where
  id : String
  author : String
  text : String
deriving DecidableEq, Repr

/-- Embedding of models.config.ActionConfig: an action type (like, heart, reply)
plus an optional reply template. -/
structure ActionConfig where
  type : String
  template : Option String := none
deriving DecidableEq, Repr

/-- Embedding of models.config.Scenario: actions plus the per-video comment cap.  (The
discovery method feeds `list_videos` upstream of this loop and is modelled by
`filterVideosByDate`.) -/
structure Scenario where
  actions : List ActionConfig
  max_comments_per_video : Nat
deriving DecidableEq, Repr

/-- Observable steps of the loop, in order of occurrence.  `providerCall`
names the platform method actually invoked (cli.py line 177 calls
`platform.like_comment(idx)`). -/
inductive OrchEvent where
  | skippedProcessed (commentId : String)
  | wouldProcess (actionType : String) (commentId : String)
  | govern
  | providerCall (actionType : String) (method : String) (idx : Nat)
      (commentId : String) (success : Bool)
  | persistLedger
deriving DecidableEq, Repr

/-- Running state of one scenario execution: the ledger, the event trace, the
`processed` counter the function reports, and the cursor into the
provider-success oracle. -/
structure OrchState where
  ledger : EngagementState
  events : List OrchEvent
  processedCount : Nat
  oracleIdx : Nat
deriving DecidableEq

/-- Starting state of a run over a just-constructed ledger. -/
def initOrch (led : EngagementState) : OrchState := ⟨led, [], 0, 0⟩

/-- Body of the per-comment loop (cli.py lines 162-184): ledger check first;
dry-run counts and moves on; otherwise govern, dispatch `like_comment(idx)`,
and on success mark the ledger, persist, and count. -/
def processOneComment (dryRun : Bool) (oracle : Nat → Bool) (actionType : String)
    (idx : Nat) (c : CommentRec) (s : OrchState) : OrchState :=
  if s.ledger.is_comment_processed c.id then
    { s with events := s.events ++ [OrchEvent.skippedProcessed c.id] }
  else if dryRun then
    { s with events := s.events ++ [OrchEvent.wouldProcess actionType c.id],
             processedCount := s.processedCount + 1 }
  else
    let success := oracle s.oracleIdx
    let call := OrchEvent.providerCall actionType "like_comment" idx c.id success
    if success then
      { ledger := s.ledger.mark_comment_processed c.id,
        events := s.events ++ [OrchEvent.govern, call, OrchEvent.persistLedger],
        processedCount := s.processedCount + 1,
        oracleIdx := s.oracleIdx + 1 }
    else
      { s with events := s.events ++ [OrchEvent.govern, call],
               oracleIdx := s.oracleIdx + 1 }

/-- The loop head is for idx, comment in enumerate(comments, 1) (cli.py line 162). -/
def processCommentsFrom (dryRun : Bool) (oracle : Nat → Bool) (actionType : String) :
    Nat → List CommentRec → OrchState → OrchState
  | _, [], s => s
  | idx, c :: rest, s =>
    processCommentsFrom dryRun oracle actionType (idx + 1) rest
      (processOneComment dryRun oracle actionType idx c s)

/-- One iteration of `for action in scenario.actions:` (cli.py lines
160-161): only `like`/`heart` action types enter the comment loop. -/
def processAction (dryRun : Bool) (oracle : Nat → Bool) (comments : List CommentRec)
    (s : OrchState) (a : ActionConfig) : OrchState :=
  if a.type = "like" ∨ a.type = "heart" then
    processCommentsFrom dryRun oracle a.type 1 comments s
  else s

/-- Embedding of _process_video_comments (cli.py lines 117-186): skip a video with a
missing or empty URL, fetch at most `max_comments_per_video` comments, bail
out when none were found, else run every configured action over them. -/
def process_video_comments (sc : Scenario) (fetch : String → Nat → List CommentRec)
    (oracle : Nat → Bool) (dryRun : Bool) (video : RawVideo) (s : OrchState) :
    OrchState :=
  match video.url with
  | none => s
  | some url =>
    if url = "" then s
    else
      let comments := fetch url sc.max_comments_per_video
      if comments.isEmpty then s
      else sc.actions.foldl (processAction dryRun oracle comments) s

/-- The per-video fold of `engage_with_scenario` (cli.py lines 261-266). -/
def runVideos (sc : Scenario) (fetch : String → Nat → List CommentRec)
    (oracle : Nat → Bool) (dryRun : Bool) (videos : List RawVideo)
    (s : OrchState) : OrchState :=
  videos.foldl (fun s v => process_video_comments sc fetch oracle dryRun v s) s

/-- The dispatch events whose ledger check ran for a given comment id. -/
def dispatchesFor (cid : String) (evs : List OrchEvent) : List OrchEvent :=
  evs.filter fun e =>
    match e with
    | OrchEvent.providerCall _ _ _ c _ => decide (c = cid)
    | _ => false

/-- The action-provider invocations in a trace. -/
def providerCalls (evs : List OrchEvent) : List OrchEvent :=
  evs.filter fun e =>
    match e with
    | OrchEvent.providerCall _ _ _ _ _ => true
    | _ => false

/-- The rate-governor invocations in a trace. -/
def governCalls (evs : List OrchEvent) : List OrchEvent :=
  evs.filter fun e =>
    match e with
    | OrchEvent.govern => true
    | _ => false

/-- The ledger-persist invocations in a trace. -/
def persistCalls (evs : List OrchEvent) : List OrchEvent :=
  evs.filter fun e =>
    match e with
    | OrchEvent.persistLedger => true
    | _ => false

/-! ## 6. Proof-side notions -/

/-- What a dry-run step must preserve: the ledger, the absence of new
provider / governor / persist events, and monotonicity of the reported
count. -/
def DryFrame (s s' : OrchState) : Prop :=
  s'.ledger = s.ledger ∧
  providerCalls s'.events = providerCalls s.events ∧
  governCalls s'.events = governCalls s.events ∧
  persistCalls s'.events = persistCalls s.events ∧
  s.processedCount ≤ s'.processedCount

/-! ## 7. Supporting lemmas -/

/-- The clock reading enters the result only as the base of the subtraction. -/
theorem parse_eq_now_sub_offset (clock : SysClock) (s : String) :
    parse_relative_time clock s = clock.now - phraseOffset s := by
  simp only [parse_relative_time, phraseOffset]
  split
  · simp
  · split <;> simp

/-- A phrase on which parsing fell back is normalized to the clock reading. -/
theorem fallback_parse_eq_now (clock : SysClock) (s : String)
    (h : timeParseFallback s = true) : parse_relative_time clock s = clock.now := by
  simp only [timeParseFallback, Bool.and_eq_true, Bool.not_eq_true',
    decide_eq_false_iff_not, Option.isNone_iff_eq_none] at h
  simp only [parse_relative_time]
  rw [if_neg h.1, h.2]

/-- Strings mapped into JSON and back come out unchanged. -/
theorem jsonStrs_map_str (l : List String) : jsonStrs? (l.map Json.str) = some l := by
  induction l with
  | nil => rfl
  | cons s rest ih => simp [jsonStrs?, ih]

/-- A successful `save` followed by a fresh construction reproduces both
processed-sets (the last-run field is whatever the stamp parses back to). -/
theorem load_after_save_ok (st : EngagementState) (now : Int) (file : FileState) :
    ∃ lr, EngagementState.load (st.save now file .ok).2.1
      = .ok ⟨st.processed_videos, st.processed_comments, lr⟩ := by
  refine ⟨if isoOfTime now = "" then none else fromIsoModel (isoOfTime now), ?_⟩
  simp only [EngagementState.save, fsOpenTruncWrite, EngagementState.toJson,
    EngagementState.load, lookupField, pySetOfJson, jsonStrs_map_str]
  simp [jsonStrs_map_str, Finset.sort_toFinset]

theorem dispatchesFor_append (cid : String) (l l' : List OrchEvent) :
    dispatchesFor cid (l ++ l') = dispatchesFor cid l ++ dispatchesFor cid l' :=
  List.filter_append ..

theorem providerCalls_append (l l' : List OrchEvent) :
    providerCalls (l ++ l') = providerCalls l ++ providerCalls l' :=
  List.filter_append ..

theorem governCalls_append (l l' : List OrchEvent) :
    governCalls (l ++ l') = governCalls l ++ governCalls l' :=
  List.filter_append ..

theorem persistCalls_append (l l' : List OrchEvent) :
    persistCalls (l ++ l') = persistCalls l ++ persistCalls l' :=
  List.filter_append ..

/-- A comment whose id is already marked is skipped: the ledger keeps the id
and no dispatch for it is added. -/
theorem idem_step (cid : String) (dryRun : Bool) (oracle : Nat → Bool)
    (atype : String) (idx : Nat) (c : CommentRec) (s : OrchState)
    (h : cid ∈ s.ledger.processed_comments) :
    cid ∈ (processOneComment dryRun oracle atype idx c s).ledger.processed_comments ∧
    dispatchesFor cid (processOneComment dryRun oracle atype idx c s).events
      = dispatchesFor cid s.events := by
  simp only [processOneComment]
  split
  · exact ⟨h, by simp [dispatchesFor_append, dispatchesFor]⟩
  · next hproc =>
    have hne : c.id ≠ cid := by
      intro heq
      rw [EngagementState.is_comment_processed, decide_eq_true_eq] at hproc
      · exact hproc (heq ▸ h)
    split
    · exact ⟨h, by simp [dispatchesFor_append, dispatchesFor]⟩
    · split
      · refine ⟨Finset.mem_insert_of_mem h, ?_⟩
        simp [dispatchesFor_append, dispatchesFor, hne]
      · exact ⟨h, by simp [dispatchesFor_append, dispatchesFor, hne]⟩

/-- Lemma idem_step lifted over the per-comment loop. -/
theorem idem_comments (cid : String) (dryRun : Bool) (oracle : Nat → Bool)
    (atype : String) (l : List CommentRec) :
    ∀ (idx : Nat) (s : OrchState), cid ∈ s.ledger.processed_comments →
      cid ∈ (processCommentsFrom dryRun oracle atype idx l s).ledger.processed_comments ∧
      dispatchesFor cid (processCommentsFrom dryRun oracle atype idx l s).events
        = dispatchesFor cid s.events := by
  induction l with
  | nil => intro idx s h; exact ⟨h, rfl⟩
  | cons c rest ih =>
    intro idx s h
    obtain ⟨h1, h2⟩ := idem_step cid dryRun oracle atype idx c s h
    obtain ⟨h3, h4⟩ := ih (idx + 1) (processOneComment dryRun oracle atype idx c s) h1
    exact ⟨h3, by rw [processCommentsFrom, h4, h2]⟩

/-- Lemma idem_step lifted over one action spec. -/
theorem idem_action (cid : String) (dryRun : Bool) (oracle : Nat → Bool)
    (comments : List CommentRec) (a : ActionConfig) (s : OrchState)
    (h : cid ∈ s.ledger.processed_comments) :
    cid ∈ (processAction dryRun oracle comments s a).ledger.processed_comments ∧
    dispatchesFor cid (processAction dryRun oracle comments s a).events
      = dispatchesFor cid s.events := by
  simp only [processAction]
  split
  · exact idem_comments cid dryRun oracle a.type comments 1 s h
  · exact ⟨h, rfl⟩

/-- Lemma idem_step lifted over the action list. -/
theorem idem_actions (cid : String) (dryRun : Bool) (oracle : Nat → Bool)
    (comments : List CommentRec) (as : List ActionConfig) :
    ∀ s : OrchState, cid ∈ s.ledger.processed_comments →
      cid ∈ (as.foldl (processAction dryRun oracle comments) s).ledger.processed_comments ∧
      dispatchesFor cid (as.foldl (processAction dryRun oracle comments) s).events
        = dispatchesFor cid s.events := by
  induction as with
  | nil => intro s h; exact ⟨h, rfl⟩
  | cons a rest ih =>
    intro s h
    obtain ⟨h1, h2⟩ := idem_action cid dryRun oracle comments a s h
    obtain ⟨h3, h4⟩ := ih (processAction dryRun oracle comments s a) h1
    exact ⟨h3, by rw [List.foldl_cons, h4, h2]⟩

/-- Lemma idem_step lifted over one video. -/
theorem idem_video (cid : String) (sc : Scenario)
    (fetch : String → Nat → List CommentRec) (oracle : Nat → Bool) (dryRun : Bool)
    (v : RawVideo) (s : OrchState) (h : cid ∈ s.ledger.processed_comments) :
    cid ∈ (process_video_comments sc fetch oracle dryRun v s).ledger.processed_comments ∧
    dispatchesFor cid (process_video_comments sc fetch oracle dryRun v s).events
      = dispatchesFor cid s.events := by
  simp only [process_video_comments]
  split
  · exact ⟨h, rfl⟩
  · split
    · exact ⟨h, rfl⟩
    · split
      · exact ⟨h, rfl⟩
      · exact idem_actions cid dryRun oracle _ sc.actions s h

/-- Lemma idem_step lifted over the whole run. -/
theorem idem_run (cid : String) (sc : Scenario)
    (fetch : String → Nat → List CommentRec) (oracle : Nat → Bool) (dryRun : Bool)
    (videos : List RawVideo) :
    ∀ s : OrchState, cid ∈ s.ledger.processed_comments →
      cid ∈ (runVideos sc fetch oracle dryRun videos s).ledger.processed_comments ∧
      dispatchesFor cid (runVideos sc fetch oracle dryRun videos s).events
        = dispatchesFor cid s.events := by
  induction videos with
  | nil => intro s h; exact ⟨h, rfl⟩
  | cons v rest ih =>
    intro s h
    obtain ⟨h1, h2⟩ := idem_video cid sc fetch oracle dryRun v s h
    obtain ⟨h3, h4⟩ := ih (process_video_comments sc fetch oracle dryRun v s) h1
    exact ⟨h3, by rw [runVideos, List.foldl_cons, ← runVideos, h4, h2]⟩

theorem dryFrame_refl (s : OrchState) : DryFrame s s :=
  ⟨rfl, rfl, rfl, rfl, le_refl _⟩

theorem dryFrame_trans {s s' s'' : OrchState} (h : DryFrame s s')
    (h' : DryFrame s' s'') : DryFrame s s'' :=
  ⟨h'.1.trans h.1, h'.2.1.trans h.2.1, h'.2.2.1.trans h.2.2.1,
   h'.2.2.2.1.trans h.2.2.2.1, h.2.2.2.2.trans h'.2.2.2.2⟩

/-- A dry-run comment step touches nothing but the trace and the counter. -/
theorem dry_step (oracle : Nat → Bool) (atype : String) (idx : Nat)
    (c : CommentRec) (s : OrchState) :
    DryFrame s (processOneComment true oracle atype idx c s) := by
  by_cases hc : s.ledger.is_comment_processed c.id = true
  · refine ⟨?_, ?_, ?_, ?_, ?_⟩ <;>
      simp [processOneComment, hc, providerCalls_append, providerCalls,
        governCalls_append, governCalls, persistCalls_append, persistCalls]
  · refine ⟨?_, ?_, ?_, ?_, ?_⟩ <;>
      simp [processOneComment, hc, providerCalls_append, providerCalls,
        governCalls_append, governCalls, persistCalls_append, persistCalls]

/-- A dry-run comment step counts every not-yet-processed comment. -/
theorem dry_step_strict (oracle : Nat → Bool) (atype : String) (idx : Nat)
    (c : CommentRec) (s : OrchState) (h : c.id ∉ s.ledger.processed_comments) :
    (processOneComment true oracle atype idx c s).processedCount
      = s.processedCount + 1 := by
  have hc : s.ledger.is_comment_processed c.id = false := by
    simpa [EngagementState.is_comment_processed] using h
  simp [processOneComment, hc]

theorem dry_comments (oracle : Nat → Bool) (atype : String) (l : List CommentRec) :
    ∀ (idx : Nat) (s : OrchState),
      DryFrame s (processCommentsFrom true oracle atype idx l s) := by
  induction l with
  | nil => intro idx s; exact dryFrame_refl s
  | cons c rest ih =>
    intro idx s
    exact dryFrame_trans (dry_step oracle atype idx c s)
      (ih (idx + 1) (processOneComment true oracle atype idx c s))

theorem dry_comments_strict (oracle : Nat → Bool) (atype : String)
    (l : List CommentRec) :
    ∀ (idx : Nat) (s : OrchState),
      (∃ c ∈ l, c.id ∉ s.ledger.processed_comments) →
      s.processedCount < (processCommentsFrom true oracle atype idx l s).processedCount := by
  induction l with
  | nil => intro idx s h; simp at h
  | cons c rest ih =>
    intro idx s h
    by_cases hc : c.id ∈ s.ledger.processed_comments
    · obtain ⟨c', hc', hid⟩ := h
      rcases List.mem_cons.1 hc' with rfl | hmem
      · exact absurd hc hid
      · have hframe := dry_step oracle atype idx c s
        have hrest : c'.id ∉ (processOneComment true oracle atype idx c s).ledger.processed_comments := by
          rw [hframe.1]; exact hid
        have := ih (idx + 1) (processOneComment true oracle atype idx c s)
          ⟨c', hmem, hrest⟩
        calc s.processedCount
            ≤ (processOneComment true oracle atype idx c s).processedCount :=
              hframe.2.2.2.2
          _ < _ := this
    · have hstep := dry_step_strict oracle atype idx c s hc
      have hframe := dry_comments oracle atype rest (idx + 1)
        (processOneComment true oracle atype idx c s)
      calc s.processedCount
          < (processOneComment true oracle atype idx c s).processedCount := by
            rw [hstep]; exact Nat.lt_succ_self _
        _ ≤ _ := hframe.2.2.2.2

theorem dry_action (oracle : Nat → Bool) (comments : List CommentRec)
    (a : ActionConfig) (s : OrchState) :
    DryFrame s (processAction true oracle comments s a) := by
  simp only [processAction]
  split
  · exact dry_comments oracle a.type comments 1 s
  · exact dryFrame_refl s

theorem dry_action_strict (oracle : Nat → Bool) (comments : List CommentRec)
    (a : ActionConfig) (s : OrchState) (ha : a.type = "like" ∨ a.type = "heart")
    (h : ∃ c ∈ comments, c.id ∉ s.ledger.processed_comments) :
    s.processedCount < (processAction true oracle comments s a).processedCount := by
  simp only [processAction, if_pos ha]
  exact dry_comments_strict oracle a.type comments 1 s h

theorem dry_actions (oracle : Nat → Bool) (comments : List CommentRec)
    (as : List ActionConfig) :
    ∀ s : OrchState, DryFrame s (as.foldl (processAction true oracle comments) s) := by
  induction as with
  | nil => intro s; exact dryFrame_refl s
  | cons a rest ih =>
    intro s
    exact dryFrame_trans (dry_action oracle comments a s)
      (ih (processAction true oracle comments s a))

theorem dry_actions_strict (oracle : Nat → Bool) (comments : List CommentRec)
    (as : List ActionConfig) :
    ∀ s : OrchState, (∃ a ∈ as, a.type = "like" ∨ a.type = "heart") →
      (∃ c ∈ comments, c.id ∉ s.ledger.processed_comments) →
      s.processedCount
        < (as.foldl (processAction true oracle comments) s).processedCount := by
  induction as with
  | nil => intro s h; simp at h
  | cons a rest ih =>
    intro s ha hc
    rcases ha with ⟨a', ha', htype⟩
    rcases List.mem_cons.1 ha' with rfl | hmem
    · have h1 := dry_action_strict oracle comments a' s htype hc
      have h2 := dry_actions oracle comments rest (processAction true oracle comments s a')
      exact h1.trans_le h2.2.2.2.2
    · have hframe := dry_action oracle comments a s
      have hc' : ∃ c ∈ comments,
          c.id ∉ (processAction true oracle comments s a).ledger.processed_comments := by
        obtain ⟨c, hcm, hcid⟩ := hc
        exact ⟨c, hcm, by rw [hframe.1]; exact hcid⟩
      have := ih (processAction true oracle comments s a) ⟨a', hmem, htype⟩ hc'
      exact hframe.2.2.2.2.trans_lt this

theorem dry_video (sc : Scenario) (fetch : String → Nat → List CommentRec)
    (oracle : Nat → Bool) (v : RawVideo) (s : OrchState) :
    DryFrame s (process_video_comments sc fetch oracle true v s) := by
  simp only [process_video_comments]
  split
  · exact dryFrame_refl s
  · split
    · exact dryFrame_refl s
    · split
      · exact dryFrame_refl s
      · exact dry_actions oracle _ sc.actions s

theorem dry_video_strict (sc : Scenario) (fetch : String → Nat → List CommentRec)
    (oracle : Nat → Bool) (v : RawVideo) (s : OrchState) (url : String)
    (hurl : v.url = some url) (hne : url ≠ "")
    (ha : ∃ a ∈ sc.actions, a.type = "like" ∨ a.type = "heart")
    (hc : ∃ c ∈ fetch url sc.max_comments_per_video,
        c.id ∉ s.ledger.processed_comments) :
    s.processedCount
      < (process_video_comments sc fetch oracle true v s).processedCount := by
  have hnonempty : ¬(fetch url sc.max_comments_per_video).isEmpty = true := by
    obtain ⟨c, hcm, _⟩ := hc
    intro hemp
    rw [List.isEmpty_iff] at hemp
    simp [hemp] at hcm
  simp only [process_video_comments, hurl, if_neg hne, if_neg hnonempty]
  exact dry_actions_strict oracle _ sc.actions s ha hc

theorem dry_run_frame (sc : Scenario) (fetch : String → Nat → List CommentRec)
    (oracle : Nat → Bool) (videos : List RawVideo) :
    ∀ s : OrchState, DryFrame s (runVideos sc fetch oracle true videos s) := by
  induction videos with
  | nil => intro s; exact dryFrame_refl s
  | cons v rest ih =>
    intro s
    have h1 := dry_video sc fetch oracle v s
    have h2 := ih (process_video_comments sc fetch oracle true v s)
    exact dryFrame_trans h1 (by rw [runVideos, List.foldl_cons, ← runVideos] at *; exact h2)

theorem dry_run_strict (sc : Scenario) (fetch : String → Nat → List CommentRec)
    (oracle : Nat → Bool) (videos : List RawVideo) :
    ∀ s : OrchState,
      (∃ v ∈ videos, ∃ url, v.url = some url ∧ url ≠ "" ∧
        (∃ a ∈ sc.actions, a.type = "like" ∨ a.type = "heart") ∧
        (∃ c ∈ fetch url sc.max_comments_per_video,
          c.id ∉ s.ledger.processed_comments)) →
      s.processedCount < (runVideos sc fetch oracle true videos s).processedCount := by
  induction videos with
  | nil => intro s h; simp at h
  | cons v rest ih =>
    intro s h
    obtain ⟨v', hv', url, hurl, hne, ha, hc⟩ := h
    rcases List.mem_cons.1 hv' with rfl | hmem
    · have h1 := dry_video_strict sc fetch oracle v' s url hurl hne ha hc
      have h2 := dry_run_frame sc fetch oracle rest
        (process_video_comments sc fetch oracle true v' s)
      rw [runVideos, List.foldl_cons, ← runVideos]
      exact h1.trans_le h2.2.2.2.2
    · have hframe := dry_video sc fetch oracle v s
      have hc' : ∃ c ∈ fetch url sc.max_comments_per_video,
          c.id ∉ (process_video_comments sc fetch oracle true v s).ledger.processed_comments := by
        obtain ⟨c, hcm, hcid⟩ := hc
        exact ⟨c, hcm, by rw [hframe.1]; exact hcid⟩
      have := ih (process_video_comments sc fetch oracle true v s)
        ⟨v', hmem, url, hurl, hne, ha, hc'⟩
      rw [runVideos, List.foldl_cons, ← runVideos]
      exact hframe.2.2.2.2.trans_lt this

theorem if_pos_lt_eq_max (x : ℚ) : (if 0 < x then x else 0) = max 0 x := by
  rcases le_or_lt x 0 with h | h
  · rw [if_neg (not_lt.2 h), max_eq_left h]
  · rw [if_pos h, max_eq_right h.le]

/-- Every successful `wait_if_needed` call waits a nonnegative ceiling time
and records `now + wait + jitter` after the pruned window. -/
theorem wait_some_shape (rl : RateLimiter) (now jitter w : ℚ) (rl' : RateLimiter)
    (heq : rl.wait_if_needed now jitter = some (w, rl')) :
    0 ≤ w ∧ rl'.action_times = prunedTimes rl now ++ [now + w + jitter] := by
  simp only [RateLimiter.wait_if_needed] at heq
  by_cases hge : rl.actions_per_minute ≤ (prunedTimes rl now).length
  · rw [if_pos hge] at heq
    cases hp : prunedTimes rl now with
    | nil => rw [hp] at heq; exact absurd heq (by simp)
    | cons oldest rest =>
      rw [hp] at heq
      simp only [Option.some.injEq, Prod.mk.injEq] at heq
      obtain ⟨hw, hrl⟩ := heq
      subst hw
      constructor
      · split
        · next hpos => exact (le_of_lt hpos)
        · exact le_refl 0
      · rw [← hrl]
  · rw [if_neg hge] at heq
    simp only [Option.some.injEq, Prod.mk.injEq] at heq
    obtain ⟨hw, hrl⟩ := heq
    subst hw
    exact ⟨le_refl 0, by rw [← hrl]⟩

/-! ## 8. Claim theorems -/

/-- C1.  Cross-run idempotence: once a comment id is in the ledger's
processed set, a run over any discovered content dispatches no action for
that id and keeps the id marked; and after persisting the run's final ledger
and constructing a fresh ledger from the written file, the id is still
marked and a second run over the same discovered content again dispatches
no action for it.  (`led` ranges over the ledger at any point of a run,
including immediately after the id was marked.) -/
theorem c1_cross_run_idempotence (sc : Scenario)
    (fetch : String → Nat → List CommentRec) (videos : List RawVideo)
    (oracle oracle₂ : Nat → Bool) (dryRun dryRun₂ : Bool) (cid : String)
    (led : EngagementState) (now : Int) (file : FileState)
    (h : cid ∈ led.processed_comments) :
    dispatchesFor cid (runVideos sc fetch oracle dryRun videos (initOrch led)).events = []
    ∧ cid ∈ (runVideos sc fetch oracle dryRun videos (initOrch led)).ledger.processed_comments
    ∧ ∃ led₂, EngagementState.load
        (((runVideos sc fetch oracle dryRun videos (initOrch led)).ledger.save now file
            .ok).2.1) = .ok led₂
      ∧ cid ∈ led₂.processed_comments
      ∧ dispatchesFor cid
          (runVideos sc fetch oracle₂ dryRun₂ videos (initOrch led₂)).events = [] := by
  obtain ⟨h1, h2⟩ := idem_run cid sc fetch oracle dryRun videos (initOrch led) h
  refine ⟨h2, h1, ?_⟩
  obtain ⟨lr, hload⟩ :=
    load_after_save_ok (runVideos sc fetch oracle dryRun videos (initOrch led)).ledger now file
  refine ⟨⟨_, _, lr⟩, hload, h1, ?_⟩
  exact (idem_run cid sc fetch oracle₂ dryRun₂ videos (initOrch ⟨_, _, lr⟩) h1).2

/-- Witness for C1 at a concrete input: one video, one comment `c1` already
marked, provider always succeeding. -/
theorem c1_cross_run_idempotence_witness :
    ("c1" ∈ (⟨∅, {"c1"}, none⟩ : EngagementState).processed_comments)
    ∧ dispatchesFor "c1"
        (runVideos ⟨[⟨"like", none⟩], 10⟩ (fun _ _ => [⟨"c1", "alice", "hi"⟩])
          (fun _ => true) false [{ url := some "u1" }]
          (initOrch ⟨∅, {"c1"}, none⟩)).events = [] :=
  ⟨by decide,
   (c1_cross_run_idempotence ⟨[⟨"like", none⟩], 10⟩ (fun _ _ => [⟨"c1", "alice", "hi"⟩])
     [{ url := some "u1" }] (fun _ => true) (fun _ => true) false false "c1"
     ⟨∅, {"c1"}, none⟩ 0 FileState.absent (by decide)).1⟩

/-- C2.  The claim says an ActionSpec of type `heart` never triggers the
`like` action path.  The code violates it: `_process_video_comments`
(cli.py line 177) invokes `platform.like_comment(idx)` for every
`like`/`heart` action spec — there is no heart path at all — so a `heart`
spec over one unprocessed comment produces exactly one provider call, and it
is to `like_comment`.  The repository's own tests
(tests/integration/test_orchestration.py::test_engage_with_heart_action,
tests/unit/test_platform_youtube.py::test_heart_comment_success) require a
separate `heart_comment` dispatch, so this is a bug in the code. -/
theorem c2_heart_dispatches_like_path :
    providerCalls
      (runVideos ⟨[⟨"heart", none⟩], 10⟩ (fun _ _ => [⟨"c1", "alice", "hi"⟩])
        (fun _ => true) false [{ url := some "u1" }]
        (initOrch EngagementState.fresh)).events
      = [OrchEvent.providerCall "heart" "like_comment" 1 "c1" true] := by decide

/-- C3 counterexample.  The claim says a post whose `posted` phrase fails to
parse is excluded by recent-days filtering; in the code the parse fallback
returns `now`, which always passes the `>= cutoff` test, so the unparsable
post is retained. -/
theorem c3_recent_days_filter_counterexample :
    filterVideosByDate 1000000000 (some 7)
        [{ url := some "u1", posted := some "gibberish" }]
      = [{ url := some "u1", posted := some "gibberish" }]
    ∧ timeParseFallback "gibberish" = true :=
  ⟨by decide, by decide⟩

/-- C3 (amended).  Recent-days filtering keeps exactly the posts whose
normalized `posted` time is at or after `now - limit` days; a post whose
phrase fails to parse is normalized to `now` and therefore INCLUDED in the
filtered list (not excluded as the claim stated). -/
theorem c3_recent_days_filter_amended (now d : Int) (videos : List RawVideo)
    (hd : 0 < d) :
    (∀ v, v ∈ filterVideosByDate now (some d) videos ↔
       v ∈ videos ∧ now - d * 86400 ≤ parse_relative_time ⟨now⟩ (v.posted.getD ""))
    ∧ ∀ v ∈ videos, timeParseFallback (v.posted.getD "") = true →
        v ∈ filterVideosByDate now (some d) videos := by
  have hchar : ∀ v, v ∈ filterVideosByDate now (some d) videos ↔
      v ∈ videos ∧ now - d * 86400 ≤ parse_relative_time ⟨now⟩ (v.posted.getD "") := by
    intro v
    simp only [filterVideosByDate]
    by_cases he : videos.isEmpty
    · rw [if_pos (Or.inr he)]
      rw [List.isEmpty_iff] at he
      subst he
      simp
    · rw [if_neg (by push_neg; exact ⟨hd.ne', he⟩)]
      simp [List.mem_filter]
  refine ⟨hchar, fun v hv hfb => ?_⟩
  rw [hchar v]
  refine ⟨hv, ?_⟩
  rw [fallback_parse_eq_now ⟨now⟩ _ hfb]
  show now - d * 86400 ≤ now
  have : (0 : Int) ≤ d * 86400 := mul_nonneg hd.le (by norm_num)
  omega

/-- Witness for C3 at the spec's own example: a 7-day cutoff keeps
"2 hours ago" and drops "400 days ago". -/
theorem c3_recent_days_filter_witness :
    ((0 : Int) < 7)
    ∧ (({ url := some "u1", posted := some "2 hours ago" } : RawVideo) ∈
        filterVideosByDate 100000000 (some 7)
          [{ url := some "u1", posted := some "2 hours ago" },
           { url := some "u2", posted := some "400 days ago" }] ↔
      ({ url := some "u1", posted := some "2 hours ago" } : RawVideo) ∈
          [({ url := some "u1", posted := some "2 hours ago" } : RawVideo),
           { url := some "u2", posted := some "400 days ago" }]
        ∧ (100000000 : Int) - 7 * 86400 ≤ parse_relative_time ⟨100000000⟩
            ((({ url := some "u1", posted := some "2 hours ago" } : RawVideo)).posted.getD "")) :=
  ⟨by decide,
   (c3_recent_days_filter_amended 100000000 7
     [{ url := some "u1", posted := some "2 hours ago" },
      { url := some "u2", posted := some "400 days ago" }] (by decide)).1
     { url := some "u1", posted := some "2 hours ago" }⟩

/-- C4 counterexample.  The claim says a persist failure is reported to the
caller as an I/O error and cannot corrupt previously-durable on-disk state.
In the code `save` swallows the OSError (`except OSError: logger.exception`,
state.py lines 69-70) — the third component below is `none`, nothing reaches
the caller — and the write is in-place (`open("w")` truncates before
`json.dump` writes), so a failure during the write leaves the previously
durable file destroyed. -/
theorem c4_persist_failure_counterexample :
    EngagementState.save ⟨∅, {"c1"}, none⟩ 7 (FileState.json (Json.str "old"))
        .failDuringWrite
      = (⟨∅, {"c1"}, none⟩, FileState.invalidJson, none)
    ∧ FileState.invalidJson ≠ FileState.json (Json.str "old") :=
  ⟨rfl, fun h => FileState.noConfusion h⟩

/-- C4 (amended).  When the backing store cannot be written, `save` catches
the OSError and logs it — nothing is reported to the caller; the in-memory
marked ids are not rolled back; a failure at mkdir or open leaves the
previous file intact, but since the write is in-place (truncate-then-write,
not write-new-then-replace) a failure during the write corrupts the backing
file. -/
theorem c4_persist_failure_amended (st : EngagementState) (now : Int)
    (file : FileState) (w : WriteOutcome) :
    (st.save now file w).2.2 = none
    ∧ (st.save now file w).1 = st
    ∧ (w = .failMkdir ∨ w = .failOpen → (st.save now file w).2.1 = file)
    ∧ (w = .failDuringWrite → (st.save now file w).2.1 = FileState.invalidJson)
    ∧ (w = .ok → (st.save now file w).2.1 = FileState.json (st.toJson now)) := by
  cases w <;> simp [EngagementState.save, fsOpenTruncWrite]

/-- Witness for C4 at a concrete failing-open write. -/
theorem c4_persist_failure_witness :
    (WriteOutcome.failOpen = WriteOutcome.failMkdir ∨
      WriteOutcome.failOpen = WriteOutcome.failOpen)
    ∧ (EngagementState.save ⟨∅, ∅, none⟩ 3 FileState.absent .failOpen).2.1
        = FileState.absent :=
  ⟨Or.inr rfl,
   (c4_persist_failure_amended ⟨∅, ∅, none⟩ 3 FileState.absent .failOpen).2.2.1
     (Or.inr rfl)⟩

/-- C5 counterexample.  The claim says the normalizer takes the reference
instant as an explicit parameter and never reads the system clock.  In the
code (`time_parser.py` line 25) the only parameter is the phrase and
`now = datetime.now(UTC)` is read inside the function, so the result of the
same call — same sole explicit argument — differs under different ambient
clock states. -/
theorem c5_clock_dependence_counterexample :
    parse_relative_time ⟨1000⟩ "2 hours ago" ≠ parse_relative_time ⟨5000⟩ "2 hours ago" := by
  decide

/-- C5 (amended).  The normalizer's only explicit parameter is the phrase;
the reference instant is read implicitly from the system clock inside the
function.  Given the phrase and the clock reading the result is
deterministic, and the clock enters only as the base from which the
phrase-determined offset is subtracted. -/
theorem c5_normalizer_determinism_amended (clock₁ clock₂ : SysClock) (s : String)
    (h : clock₁.now = clock₂.now) :
    parse_relative_time clock₁ s = parse_relative_time clock₂ s
    ∧ parse_relative_time clock₁ s = clock₁.now - phraseOffset s := by
  constructor
  · rw [parse_eq_now_sub_offset, parse_eq_now_sub_offset, h]
  · exact parse_eq_now_sub_offset clock₁ s

/-- Witness for C5 at a concrete clock and phrase. -/
theorem c5_normalizer_determinism_witness :
    (SysClock.mk 500).now = (SysClock.mk 500).now
    ∧ (parse_relative_time ⟨500⟩ "2 hours ago" = parse_relative_time ⟨500⟩ "2 hours ago"
       ∧ parse_relative_time ⟨500⟩ "2 hours ago"
          = (SysClock.mk 500).now - phraseOffset "2 hours ago") :=
  ⟨rfl, c5_normalizer_determinism_amended ⟨500⟩ ⟨500⟩ "2 hours ago" rfl⟩

/-- C6.  `wait_if_needed` first prunes timestamps past the 60-second window;
with fewer than `actions_per_minute` remaining, the ceiling wait is zero
(only the jitter, drawn in `[min_delay, max_delay]`, is slept); with at
least that many remaining, the ceiling wait is exactly
`max 0 (oldest + 60 - now)`; the jitter is always slept afterwards and the
post-sleep instant `now + wait + jitter` is recorded after the pruned
window, with the configuration unchanged.  In particular the first
`actions_per_minute` calls in a window get a zero ceiling wait and the next
call blocks until the oldest retained timestamp exits the window. -/
theorem c6_rate_governor_algorithm (rl : RateLimiter) (now jitter : ℚ)
    (hapm : 1 ≤ rl.actions_per_minute)
    (_hjit : rl.min_delay ≤ jitter ∧ jitter ≤ rl.max_delay) :
    ∃ w rl', rl.wait_if_needed now jitter = some (w, rl')
      ∧ ((prunedTimes rl now).length < rl.actions_per_minute → w = 0)
      ∧ (rl.actions_per_minute ≤ (prunedTimes rl now).length →
          w = max 0 ((prunedTimes rl now).headD 0 + 60 - now))
      ∧ rl'.action_times = prunedTimes rl now ++ [now + w + jitter]
      ∧ rl'.actions_per_minute = rl.actions_per_minute
      ∧ rl'.min_delay = rl.min_delay
      ∧ rl'.max_delay = rl.max_delay := by
  by_cases hge : rl.actions_per_minute ≤ (prunedTimes rl now).length
  · cases hp : prunedTimes rl now with
    | nil =>
      exfalso
      rw [hp] at hge
      simp at hge
      omega
    | cons oldest rest =>
      refine ⟨max 0 (oldest + 60 - now),
        ⟨rl.actions_per_minute, rl.min_delay, rl.max_delay,
          (oldest :: rest) ++ [now + max 0 (oldest + 60 - now) + jitter]⟩,
        ?_, ?_, ?_, rfl, rfl, rfl, rfl⟩
      · simp only [RateLimiter.wait_if_needed, hp, if_pos (hp ▸ hge)]
        rw [if_pos_lt_eq_max]
      · intro hlt
        exact absurd (hp ▸ hge) (not_le.2 hlt)
      · intro _
        rfl
  · refine ⟨0,
      ⟨rl.actions_per_minute, rl.min_delay, rl.max_delay,
        prunedTimes rl now ++ [now + 0 + jitter]⟩,
      ?_, fun _ => rfl, fun hc => absurd hc hge, rfl, rfl, rfl, rfl⟩
    simp only [RateLimiter.wait_if_needed, if_neg hge]

/-- Witness for C6: ceiling 2, two timestamps in the window, the third call
must wait `10 + 60 - 30 = 40`. -/
theorem c6_rate_governor_witness :
    (1 ≤ (RateLimiter.mk 2 2 5 [10, 20]).actions_per_minute)
    ∧ ((RateLimiter.mk 2 2 5 [10, 20]).min_delay ≤ (3 : ℚ)
       ∧ (3 : ℚ) ≤ (RateLimiter.mk 2 2 5 [10, 20]).max_delay)
    ∧ ∃ w rl', (RateLimiter.mk 2 2 5 [10, 20]).wait_if_needed 30 3 = some (w, rl')
      ∧ ((prunedTimes (RateLimiter.mk 2 2 5 [10, 20]) 30).length
            < (RateLimiter.mk 2 2 5 [10, 20]).actions_per_minute → w = 0)
      ∧ ((RateLimiter.mk 2 2 5 [10, 20]).actions_per_minute
            ≤ (prunedTimes (RateLimiter.mk 2 2 5 [10, 20]) 30).length →
          w = max 0 ((prunedTimes (RateLimiter.mk 2 2 5 [10, 20]) 30).headD 0 + 60 - 30))
      ∧ rl'.action_times = prunedTimes (RateLimiter.mk 2 2 5 [10, 20]) 30 ++ [30 + w + 3]
      ∧ rl'.actions_per_minute = (RateLimiter.mk 2 2 5 [10, 20]).actions_per_minute
      ∧ rl'.min_delay = (RateLimiter.mk 2 2 5 [10, 20]).min_delay
      ∧ rl'.max_delay = (RateLimiter.mk 2 2 5 [10, 20]).max_delay :=
  ⟨by decide, by norm_num,
   c6_rate_governor_algorithm (RateLimiter.mk 2 2 5 [10, 20]) 30 3 (by decide)
     (by norm_num)⟩

/-- C7.  Dry run has no side effects: over any discovered content the run
never invokes the action provider, never invokes the rate governor, never
persists, and leaves the ledger exactly as constructed; and over non-empty
content that a real run would act on (a video with a URL, a like/heart
action, an unprocessed comment) it reports a positive would-process
count. -/
theorem c7_dry_run_no_side_effects (sc : Scenario)
    (fetch : String → Nat → List CommentRec) (oracle : Nat → Bool)
    (videos : List RawVideo) (led : EngagementState)
    (hne : ∃ v ∈ videos, ∃ url, v.url = some url ∧ url ≠ "" ∧
      (∃ a ∈ sc.actions, a.type = "like" ∨ a.type = "heart") ∧
      (∃ c ∈ fetch url sc.max_comments_per_video, c.id ∉ led.processed_comments)) :
    providerCalls (runVideos sc fetch oracle true videos (initOrch led)).events = []
    ∧ governCalls (runVideos sc fetch oracle true videos (initOrch led)).events = []
    ∧ persistCalls (runVideos sc fetch oracle true videos (initOrch led)).events = []
    ∧ (runVideos sc fetch oracle true videos (initOrch led)).ledger = led
    ∧ 0 < (runVideos sc fetch oracle true videos (initOrch led)).processedCount := by
  have hf := dry_run_frame sc fetch oracle videos (initOrch led)
  exact ⟨hf.2.1, hf.2.2.1, hf.2.2.2.1, hf.1,
    dry_run_strict sc fetch oracle videos (initOrch led) hne⟩

/-- Witness for C7: one video, a heart action, one unprocessed comment. -/
theorem c7_dry_run_no_side_effects_witness :
    (∃ v ∈ [({ url := some "u1" } : RawVideo)], ∃ url, v.url = some url ∧ url ≠ "" ∧
      (∃ a ∈ (⟨[⟨"heart", none⟩], 10⟩ : Scenario).actions,
        a.type = "like" ∨ a.type = "heart") ∧
      (∃ c ∈ (fun (_ : String) (_ : Nat) => [(⟨"c1", "alice", "hi"⟩ : CommentRec)]) url
          (⟨[⟨"heart", none⟩], 10⟩ : Scenario).max_comments_per_video,
        c.id ∉ EngagementState.fresh.processed_comments))
    ∧ 0 < (runVideos ⟨[⟨"heart", none⟩], 10⟩
        (fun _ _ => [⟨"c1", "alice", "hi"⟩]) (fun _ => true) true
        [{ url := some "u1" }] (initOrch EngagementState.fresh)).processedCount := by
  have hne : ∃ v ∈ [({ url := some "u1" } : RawVideo)], ∃ url, v.url = some url ∧ url ≠ "" ∧
      (∃ a ∈ (⟨[⟨"heart", none⟩], 10⟩ : Scenario).actions,
        a.type = "like" ∨ a.type = "heart") ∧
      (∃ c ∈ (fun (_ : String) (_ : Nat) => [(⟨"c1", "alice", "hi"⟩ : CommentRec)]) url
          (⟨[⟨"heart", none⟩], 10⟩ : Scenario).max_comments_per_video,
        c.id ∉ EngagementState.fresh.processed_comments) := by
    refine ⟨_, List.mem_singleton.2 rfl, "u1", rfl, by decide, ?_, ?_⟩
    · exact ⟨⟨"heart", none⟩, by simp, Or.inr rfl⟩
    · exact ⟨⟨"c1", "alice", "hi"⟩, by simp, by decide⟩
  exact ⟨hne, (c7_dry_run_no_side_effects ⟨[⟨"heart", none⟩], 10⟩
    (fun _ _ => [⟨"c1", "alice", "hi"⟩]) (fun _ => true)
    [{ url := some "u1" }] EngagementState.fresh hne).2.2.2.2⟩

/-- C8 counterexample.  The claim says construction from any malformed
backing store starts from empty sets rather than raising.  A store holding
valid JSON that is not an object — here the array `[]` — reaches
`data.get(...)` (state.py line 41) and raises AttributeError out of the
constructor: only json.JSONDecodeError and OSError are caught (line 52). -/
theorem c8_load_counterexample :
    EngagementState.load (FileState.json (Json.arr [])) = .error PyErr.attributeError :=
  rfl

/-- C8 (amended).  Construction never aborts when the backing store is
missing, unreadable, or not valid JSON: those three cases start from empty
sets (state.py lines 34-36 and 52-53); but a store whose content is valid
JSON of the wrong shape raises out of construction. -/
theorem c8_load_never_aborts_amended :
    EngagementState.load FileState.absent = .ok EngagementState.fresh
    ∧ EngagementState.load FileState.unreadable = .ok EngagementState.fresh
    ∧ EngagementState.load FileState.invalidJson = .ok EngagementState.fresh :=
  ⟨rfl, rfl, rfl⟩

/-- C9.  Ledger round-trip: persisting any ledger state (with the write
succeeding) and constructing a fresh ledger from the written file reproduces
exactly the processed-videos and processed-comments sets. -/
theorem c9_ledger_round_trip (st : EngagementState) (now : Int) (file : FileState) :
    ∃ led₂, EngagementState.load (st.save now file .ok).2.1 = .ok led₂
      ∧ led₂.processed_videos = st.processed_videos
      ∧ led₂.processed_comments = st.processed_comments := by
  obtain ⟨lr, h⟩ := load_after_save_ok st now file
  exact ⟨⟨st.processed_videos, st.processed_comments, lr⟩, h, rfl, rfl⟩

/-- C10.  If the recorded timestamps are sorted and the clock has not gone
backwards past any of them, then after `wait_if_needed` the ceiling wait is
nonnegative, the recorded list is again sorted with every entry at or before
the newly appended instant, and the head of the pruned window is its oldest
element — the fact the ceiling-wait computation relies on. -/
theorem c10_action_times_sorted (rl : RateLimiter) (now jitter : ℚ)
    (hsorted : List.Sorted (· ≤ ·) rl.action_times)
    (hpast : ∀ t ∈ rl.action_times, t ≤ now) (hj : 0 ≤ jitter) :
    ∀ w rl', rl.wait_if_needed now jitter = some (w, rl') →
      0 ≤ w
      ∧ List.Sorted (· ≤ ·) rl'.action_times
      ∧ (∀ t ∈ rl'.action_times, t ≤ now + w + jitter)
      ∧ ∀ t ∈ prunedTimes rl now, (prunedTimes rl now).headD 0 ≤ t := by
  intro w rl' heq
  obtain ⟨hw, hshape⟩ := wait_some_shape rl now jitter w rl' heq
  have hprsorted : List.Sorted (· ≤ ·) (prunedTimes rl now) :=
    List.Pairwise.sublist (List.filter_sublist _) hsorted
  have hprmem : ∀ t ∈ prunedTimes rl now, t ≤ now := fun t ht =>
    hpast t (List.mem_of_mem_filter ht)
  have hbound : now ≤ now + w + jitter := by linarith
  refine ⟨hw, ?_, ?_, ?_⟩
  · rw [hshape, List.Sorted, List.pairwise_append]
    refine ⟨hprsorted, List.pairwise_singleton _ _, ?_⟩
    intro a ha b hb
    rw [List.mem_singleton] at hb
    subst hb
    exact (hprmem a ha).trans hbound
  · intro t ht
    rw [hshape, List.mem_append] at ht
    rcases ht with ht | ht
    · exact (hprmem t ht).trans hbound
    · rw [List.mem_singleton] at ht
      subst ht
      exact le_refl _
  · intro t ht
    cases hp : prunedTimes rl now with
    | nil => rw [hp] at ht; simp at ht
    | cons a rest =>
      rw [hp] at ht hprsorted
      rcases List.mem_cons.1 ht with rfl | hmem
      · exact le_refl _
      · exact List.rel_of_sorted_cons hprsorted t hmem

/-- Witness for C10 at a concrete sorted window. -/
theorem c10_action_times_sorted_witness :
    List.Sorted (· ≤ ·) (RateLimiter.mk 2 2 5 [10, 20]).action_times
    ∧ (∀ t ∈ (RateLimiter.mk 2 2 5 [10, 20]).action_times, t ≤ (30 : ℚ))
    ∧ ((0 : ℚ) ≤ 3)
    ∧ ∀ w rl', (RateLimiter.mk 2 2 5 [10, 20]).wait_if_needed 30 3 = some (w, rl') →
        0 ≤ w
        ∧ List.Sorted (· ≤ ·) rl'.action_times
        ∧ (∀ t ∈ rl'.action_times, t ≤ 30 + w + 3)
        ∧ ∀ t ∈ prunedTimes (RateLimiter.mk 2 2 5 [10, 20]) 30,
            (prunedTimes (RateLimiter.mk 2 2 5 [10, 20]) 30).headD 0 ≤ t := by
  have h1 : List.Sorted (· ≤ ·) (RateLimiter.mk 2 2 5 [10, 20]).action_times := by
    simp [List.Sorted]
    norm_num
  have h2 : ∀ t ∈ (RateLimiter.mk 2 2 5 [10, 20]).action_times, t ≤ (30 : ℚ) := by
    intro t ht
    simp at ht
    rcases ht with rfl | rfl <;> norm_num
  exact ⟨h1, h2, by norm_num,
    c10_action_times_sorted (RateLimiter.mk 2 2 5 [10, 20]) 30 3 h1 h2 (by norm_num)⟩

end EngageRunner
